import Mathlib

/-!
Verification development for the Task-Flow scheduling core
(`src/App.jsx`).  The core consists of four pure components:

* `checkConflict`   — interval conflict detector (App.jsx lines 115-125)
* `getFreeSlots`    — free-slot calculator       (App.jsx lines 127-149)
* `parseTaskFromNL` — natural-language intent resolver (lines 161-256)
* `checkReminders`  — reminder scheduler          (lines 279-292)

Instants are modelled as integer milliseconds since the Unix epoch with
UTC clock fields (the JavaScript code mixes `Date#getHours` and
`Date#toISOString`; both coincide in the UTC timezone that we model).
JavaScript numbers behave as exact integers on every quantity involved
here, so `Int` is a faithful carrier.
-/

namespace TaskFlow

/-- Milliseconds in one day (the unit used by `Date#toISOString` day
splitting). -/
def msPerDay : Int := 86400000

/-- The calendar-day index of an instant, i.e. the date part of
`toISOString()` (`.split("T")[0]` in the source), as days since epoch.
Lean's `/` on `Int` is Euclidean division, which is floor division for a
positive divisor, matching the calendar computation. -/
def isoDay (t : Int) : Int := t / msPerDay

/-- Source `minutesSinceMidnight` (App.jsx line 111):
`date.getHours() * 60 + date.getMinutes()`, i.e. whole minutes elapsed
since the midnight that starts the instant's day. -/
def minutesSinceMidnight (t : Int) : Int := t % msPerDay / 60000

/-- The Task record as used by the scheduling core (schema in App.jsx;
fields the core never reads or writes are omitted).  Identifiers are
modelled as naturals. -/
structure Task where
  id : Nat
  title : String
  description : String
  startTime : Int
  endTime : Int
  completed : Bool
  category : String
  priority : String
  color : String
  reminder : Bool
  reminderSent : Bool
deriving DecidableEq, Repr

/-- The pairwise overlap test of the conflict detector (App.jsx line
123): `nStart < tEnd && nEnd > tStart`. -/
def overlaps (nStart nEnd tStart tEnd : Int) : Bool :=
  nStart < tEnd && nEnd > tStart

/-- Source `checkConflict` (App.jsx lines 115-125): drop the task whose
id equals the exclusion id (default `null`, modelled `none`), then test
whether any remaining task's interval overlaps the candidate. -/
def checkConflict (tasks : List Task) (newStart newEnd : Int)
    (excludeId : Option Nat := none) : Bool :=
  (tasks.filter (fun t => !(some t.id == excludeId))).any
    (fun t => overlaps newStart newEnd t.startTime t.endTime)

/-- A free slot `{start, end}` in minutes since midnight (the `end`
field is called `stop` because `end` is a Lean keyword). -/
structure Slot where
  start : Int
  stop : Int
deriving DecidableEq, Repr

/-- The tasks of the target day, sorted ascending by start instant:
`tasks.filter(t => isoDate(t.startTime) === dateStr).sort((a, b) => a.startTime - b.startTime)`
(App.jsx lines 128-130). -/
def dayTasks (tasks : List Task) (dateIdx : Int) : List Task :=
  (tasks.filter (fun t => isoDay t.startTime == dateIdx)).insertionSort
    (fun a b => a.startTime ≤ b.startTime)

/-- The cursor sweep of `getFreeSlots` (App.jsx lines 132-146): for each
day task in order, emit `[cursor, taskStart)` when the task starts after
the cursor, then advance the cursor to `max cursor taskEnd`; finally
emit the trailing slot up to the window end when the cursor is still
below it. -/
def freeSweep (dayEndMin : Int) : Int → List Task → List Slot
  | cursor, [] =>
      if cursor < dayEndMin then [⟨cursor, dayEndMin⟩] else []
  | cursor, t :: ts =>
      (if minutesSinceMidnight t.startTime > cursor then
        [⟨cursor, minutesSinceMidnight t.startTime⟩]
      else []) ++
        freeSweep dayEndMin (max cursor (minutesSinceMidnight t.endTime)) ts

/-- Source `getFreeSlots` (App.jsx lines 127-149) with the default day
window 08:00-22:00 (`dayStart = 8`, `dayEnd = 22`, in hours). -/
def getFreeSlots (tasks : List Task) (dateIdx : Int)
    (dayStart : Int := 8) (dayEnd : Int := 22) : List Slot :=
  freeSweep (dayEnd * 60) (dayStart * 60) (dayTasks tasks dateIdx)

/-- Membership of a minute instant in some slot of a list. -/
def inSlots (x : Int) (l : List Slot) : Prop :=
  ∃ s ∈ l, s.start ≤ x ∧ x < s.stop

/-- The firing condition of the reminder scheduler (App.jsx lines
282-285): the task wants a reminder, is not completed, has not been
notified, and starts within the next fifteen minutes (exclusive below,
inclusive above).  The source computes `minsUntil = msUntil / 60000` as
an exact rational and tests `minsUntil > 0 && minsUntil <= 15`, which on
integer milliseconds is exactly `0 < msUntil ∧ msUntil ≤ 15 * 60000`. -/
def reminderFires (now : Int) (t : Task) : Bool :=
  !(t.completed || t.reminderSent || !t.reminder) &&
    (decide (0 < t.startTime - now) &&
      decide (t.startTime - now ≤ 15 * 60000))

/-- One task's update inside `checkReminders` (App.jsx lines 281-290):
skip completed / already-notified / reminder-disabled tasks, flip
`reminderSent` when the task enters the firing window, otherwise return
the task unchanged. -/
def checkRemindersStep (now : Int) (t : Task) : Task :=
  if t.completed || t.reminderSent || !t.reminder then t
  else if 0 < t.startTime - now ∧ t.startTime - now ≤ 15 * 60000 then
    { t with reminderSent := true }
  else t

/-- Source `checkReminders` (App.jsx lines 279-292): one poll maps the
update over the whole collection. -/
def checkReminders (now : Int) (tasks : List Task) : List Task :=
  tasks.map (checkRemindersStep now)

/-- The tasks for which `sendNotification` is invoked during one poll of
`checkReminders` (App.jsx line 286 is reached exactly when the firing
condition holds). -/
def firedReminders (now : Int) (tasks : List Task) : List Task :=
  tasks.filter (reminderFires now)

/-- ASCII lower-casing of one character, the effect of
`String#toLowerCase` on the inputs handled by the resolver (codepoints
65-90 are `A`-`Z`). -/
def lcChar (c : Char) : Char :=
  if 65 ≤ c.toNat ∧ c.toNat ≤ 90 then Char.ofNat (c.toNat + 32) else c

/-- ASCII upper-casing of one character (`String#toUpperCase` on one
character, used for title capitalisation; codepoints 97-122 are
`a`-`z`). -/
def ucChar (c : Char) : Char :=
  if 97 ≤ c.toNat ∧ c.toNat ≤ 122 then Char.ofNat (c.toNat - 32) else c

/-- The whitespace class of the regex `\s` on the characters that can
occur here. -/
def isSpaceChar (c : Char) : Bool :=
  c = ' ' || c = '\t' || c = '\n' || c = '\r'

/-- Numeric value of a decimal digit character. -/
def digitVal (c : Char) : Nat := c.toNat - 48

/-- The effect of `parseInt` on a non-empty string of decimal digits. -/
def natFromDigits (l : List Char) : Nat :=
  l.foldl (fun a c => a * 10 + digitVal c) 0

/-- Case-insensitively strip a (lowercase) literal pattern from the
front of the input, returning the rest on success. -/
def dropPrefixCI : List Char → List Char → Option (List Char)
  | [], l => some l
  | _ :: _, [] => none
  | p :: ps, c :: cs => if lcChar c = p then dropPrefixCI ps cs else none

/-- A regex alternation of literals: try each alternative in order at
the front of the input, first success wins (JavaScript alternation
semantics). -/
def matchAltCI : List (List Char) → List Char → Option (List Char)
  | [], _ => none
  | p :: ps, l =>
    match dropPrefixCI p l with
    | some r => some r
    | none => matchAltCI ps l

/-- Case-insensitive substring test, the effect of
`/pat/i.test(s)` for a literal pattern, and of `String#includes` on
already-lowercased input. -/
def containsSubCI (kw : List Char) : List Char → Bool
  | [] => (dropPrefixCI kw []).isSome
  | c :: r => (dropPrefixCI kw (c :: r)).isSome || containsSubCI kw r

/-- One match of the time regex
`/(\d{1,2})(?::(\d{2}))?\s*(am|pm)?/gi` (App.jsx line 166) starting at a
digit `c`, together with the 12-hour normalisation of lines 173-174
(`pm` adds 12 unless the hour is 12, `am` maps hour 12 to 0).  Returns
the `(hour, minute)` pair and the unconsumed rest of the input. -/
def timeTail (c : Char) (rest : List Char) : (Nat × Nat) × List Char :=
  let p1 : Nat × List Char :=
    match rest with
    | d :: r => if d.isDigit then (digitVal c * 10 + digitVal d, r)
                else (digitVal c, d :: r)
    | [] => (digitVal c, [])
  let p2 : Nat × List Char :=
    match p1.2 with
    | ':' :: d1 :: d2 :: r =>
        if d1.isDigit && d2.isDigit then (digitVal d1 * 10 + digitVal d2, r)
        else (0, ':' :: d1 :: d2 :: r)
    | r => (0, r)
  let r3 := p2.2.dropWhile isSpaceChar
  match r3 with
  | 'a' :: 'm' :: r => ((if p1.1 = 12 then 0 else p1.1, p2.1), r)
  | 'p' :: 'm' :: r => ((if p1.1 = 12 then p1.1 else p1.1 + 12, p2.1), r)
  | _ => ((p1.1, p2.1), r3)

/-- The `while ((m = timeRegex.exec(lower)) !== null)` loop of App.jsx
lines 167-176: scan left to right, matching at every digit position and
resuming after each match.  Every match consumes at least the digit it
starts at, so a fuel of the input length suffices exactly. -/
def scanTimesFuel : Nat → List Char → List (Nat × Nat)
  | 0, _ => []
  | _ + 1, [] => []
  | fuel + 1, c :: rest =>
    if c.isDigit then
      let m := timeTail c rest
      m.1 :: scanTimesFuel fuel m.2
    else scanTimesFuel fuel rest

/-- All time-of-day mentions of an (already lowercased) utterance. -/
def scanTimes (l : List Char) : List (Nat × Nat) := scanTimesFuel l.length l

/-- The unit alternation `(?:hour|hr|minute|min)` shared by the duration
patterns, in source order. -/
def unitAlts : List (List Char) :=
  [['h', 'o', 'u', 'r'], ['h', 'r'], ['m', 'i', 'n', 'u', 't', 'e'],
    ['m', 'i', 'n']]

/-- First match of the duration regex `/(\d+)\s*(hour|hr|minute|min)/`
(App.jsx line 189) on the lowercased utterance: the value of capture 1
and whether capture 2 starts with `h` (the test the source applies).
The scan tries every position left to right and stops at the first
success, exactly like a non-global `String#match`. -/
def findDurationFuel : Nat → List Char → Option (Nat × Bool)
  | 0, _ => none
  | _ + 1, [] => none
  | fuel + 1, c :: rest =>
    if c.isDigit then
      let digs := (c :: rest).takeWhile Char.isDigit
      let r1 := (c :: rest).dropWhile Char.isDigit
      let r2 := r1.dropWhile isSpaceChar
      match matchAltCI unitAlts r2 with
      | some _ =>
          some (natFromDigits digs,
            match r2 with
            | 'h' :: _ => true
            | _ => false)
      | none => findDurationFuel fuel rest
    else findDurationFuel fuel rest

/-- Entry point for the duration scan. -/
def findDuration (l : List Char) : Option (Nat × Bool) :=
  findDurationFuel l.length l

/-- One match of the title-stripping pattern
`/at \d{1,2}(?::\d{2})?\s*(?:am|pm)?/gi` (App.jsx line 198) at the front
of the input: literal `at `, one or two digits (greedy), an optional
colon group of exactly two digits, greedy whitespace, and an optional
meridiem marker. -/
def matchTimePhrase (l : List Char) : Option (List Char) :=
  match dropPrefixCI ['a', 't', ' '] l with
  | none => none
  | some r0 =>
    match r0 with
    | c :: r1 =>
      if c.isDigit then
        let r2 : List Char :=
          match r1 with
          | d :: r => if d.isDigit then r else d :: r
          | [] => []
        let r3 : List Char :=
          match r2 with
          | ':' :: d1 :: d2 :: r =>
              if d1.isDigit && d2.isDigit then r else ':' :: d1 :: d2 :: r
          | r => r
        let r4 := r3.dropWhile isSpaceChar
        match matchAltCI [['a', 'm'], ['p', 'm']] r4 with
        | some r => some r
        | none => some r4
      else none
    | [] => none

/-- One match of the title-stripping pattern
`/for \d+ (?:hour|hr|minute|min)s?/gi` (App.jsx line 199) at the front
of the input: literal `for `, at least one digit, a literal space, a
unit alternative, and an optional plural `s`. -/
def matchDurPhrase (l : List Char) : Option (List Char) :=
  match dropPrefixCI ['f', 'o', 'r', ' '] l with
  | none => none
  | some r0 =>
    let digs := r0.takeWhile Char.isDigit
    let r1 := r0.dropWhile Char.isDigit
    if digs.isEmpty then none
    else
      match r1 with
      | ' ' :: r2 =>
        match matchAltCI unitAlts r2 with
        | none => none
        | some r3 =>
          match r3 with
          | c :: r4 => if lcChar c = 's' then some r4 else some (c :: r4)
          | [] => some []
      | _ => none

/-- Global regex replacement by the empty string, as
`String#replace(/pat/gi, "")`: scan left to right, removing each match
and resuming after it, otherwise keeping the character and moving one
position on.  Matchers always consume at least one character, so a fuel
of the input length suffices. -/
def stripAll (m : List Char → Option (List Char)) : Nat → List Char → List Char
  | 0, l => l
  | _ + 1, [] => []
  | fuel + 1, c :: rest =>
    match m (c :: rest) with
    | some r => stripAll m fuel r
    | none => c :: stripAll m fuel rest

/-- The command-verb alternation of App.jsx line 196, in source order. -/
def verbLits : List (List Char) :=
  [("schedule").toList, ("add").toList, ("create").toList,
    ("set up").toList, ("book").toList, ("remind me to").toList]

/-- The date-keyword alternation of App.jsx line 197, in source order. -/
def dateLits : List (List Char) :=
  [("tomorrow").toList, ("today").toList, ("next week").toList]

/-- The effect of `String#trim` restricted to the whitespace characters of
`isSpaceChar`. -/
def trimChars (l : List Char) : List Char :=
  ((l.dropWhile isSpaceChar).reverse.dropWhile isSpaceChar).reverse

/-- Capitalisation of the first character
(`title.charAt(0).toUpperCase() + title.slice(1)`, App.jsx line 203). -/
def capitalizeChars : List Char → List Char
  | [] => []
  | c :: r => ucChar c :: r

/-- Title extraction (App.jsx lines 195-203): strip command verbs, date
keywords, time phrases and duration phrases from the original message,
trim, substitute `New Task` for an empty result, and capitalise. -/
def resolvedTitle (message : String) : String :=
  let t0 := stripAll (matchAltCI verbLits) message.toList.length message.toList
  let t1 := stripAll (matchAltCI dateLits) t0.length t0
  let t2 := stripAll matchTimePhrase t1.length t1
  let t3 := stripAll matchDurPhrase t2.length t2
  let t4 := trimChars t3
  let t5 := if t4.isEmpty then ("New Task").toList else t4
  String.mk (capitalizeChars t5)

/-- The work-related keyword set of App.jsx line 207. -/
def workKeywords : List String :=
  ["meeting", "call", "standup", "sync", "review", "client"]

/-- The health-related keyword set of App.jsx line 208. -/
def healthKeywords : List String :=
  ["gym", "exercise", "workout", "run", "yoga", "health", "doctor"]

/-- The personal-related keyword set of App.jsx line 209. -/
def personalKeywords : List String :=
  ["lunch", "dinner", "breakfast", "coffee", "birthday", "party"]

/-- Case-insensitive test of a keyword alternation against the title,
the effect of `/kw1|kw2|.../i.test(title)`. -/
def testAny (kws : List String) (title : String) : Bool :=
  kws.any (fun k => containsSubCI k.toList title.toList)

/-- Category detection as the source writes it (App.jsx lines 206-209):
three INDEPENDENT `if` statements reassigning `category` in sequence,
so a later matching set overwrites an earlier one. -/
def inferCategory (title : String) : String :=
  let c1 := if testAny workKeywords title then "work" else "general"
  let c2 := if testAny healthKeywords title then "health" else c1
  if testAny personalKeywords title then "personal" else c2

/-- Modelled from the spec (§4.3 step 5), for comparison with
`inferCategory`: test the work, health and personal keyword sets in that
fixed priority order and let the FIRST match win. -/
def inferCategorySpec (title : String) : String :=
  if testAny workKeywords title then "work"
  else if testAny healthKeywords title then "health"
  else if testAny personalKeywords title then "personal"
  else "general"

/-- The category colour table of App.jsx line 236. -/
def categoryColor (category : String) : String :=
  if category = "work" then "#4A90D9"
  else if category = "health" then "#5BB97B"
  else if category = "personal" then "#7C5CBF"
  else "#94A3B8"

/-- Two-digit zero padding (`String#padStart(2, "0")`). -/
def pad2 (s : String) : String := if s.length < 2 then "0" ++ s else s

/-- Source `minutesToTime` (App.jsx lines 151-155). -/
def minutesToTime (minutes : Int) : String :=
  pad2 (toString (minutes / 60)) ++ ":" ++ pad2 (toString (minutes % 60))

/-- Source `formatTime` (App.jsx lines 103-105): the 24-hour
`HH:MM` rendering of an instant's clock time. -/
def formatTime (t : Int) : String := minutesToTime (minutesSinceMidnight t)

/-- Proleptic Gregorian `(year, month, day)` of an epoch day index
(the standard civil-from-days computation that underlies
`Date#toLocaleDateString`). -/
def civilFromDay (z0 : Int) : Int × Int × Int :=
  let z := z0 + 719468
  let era := z / 146097
  let doe := z - era * 146097
  let yoe := (doe - doe / 1460 + doe / 36524 - doe / 146096) / 365
  let y := yoe + era * 400
  let doy := doe - (365 * yoe + yoe / 4 - yoe / 100)
  let mp := (5 * doy + 2) / 153
  let d := doy - (153 * mp + 2) / 5 + 1
  let m := if mp < 10 then mp + 3 else mp - 9
  (if m ≤ 2 then y + 1 else y, m, d)

/-- English weekday names, indexed Sunday = 0. -/
def weekdayName (n : Int) : String :=
  if n = 0 then "Sunday" else if n = 1 then "Monday"
  else if n = 2 then "Tuesday" else if n = 3 then "Wednesday"
  else if n = 4 then "Thursday" else if n = 5 then "Friday"
  else "Saturday"

/-- English short month names, indexed January = 1. -/
def monthShort (m : Int) : String :=
  if m = 1 then "Jan" else if m = 2 then "Feb" else if m = 3 then "Mar"
  else if m = 4 then "Apr" else if m = 5 then "May" else if m = 6 then "Jun"
  else if m = 7 then "Jul" else if m = 8 then "Aug" else if m = 9 then "Sep"
  else if m = 10 then "Oct" else if m = 11 then "Nov" else "Dec"

/-- The `en-US` date rendering with
`{ weekday: "long", month: "short", day: "numeric" }` used in the
confirmation message (App.jsx line 254), for a day index.  The epoch day
0 (1970-01-01) was a Thursday. -/
def localeDateString (dayIdx : Int) : String :=
  let c := civilFromDay dayIdx
  weekdayName ((dayIdx + 4) % 7) ++ ", " ++ monthShort c.2.1 ++ " " ++
    toString c.2.2

/-- The lowercased utterance (`message.toLowerCase()`, App.jsx line
163). -/
def lowerOf (message : String) : List Char := message.toList.map lcChar

/-- The list of time-of-day mentions of the utterance (App.jsx lines
166-176). -/
def resolvedTimes (message : String) : List (Nat × Nat) :=
  scanTimes (lowerOf message)

/-- Relative-date resolution (App.jsx lines 179-186): `tomorrow` shifts
the reference instant by one day, otherwise `next week` shifts it by
seven. -/
def resolvedTarget (message : String) (selectedDate : Int) : Int :=
  if containsSubCI ("tomorrow").toList (lowerOf message) then
    selectedDate + msPerDay
  else if containsSubCI ("next week").toList (lowerOf message) then
    selectedDate + 7 * msPerDay
  else selectedDate

/-- Duration resolution in minutes (App.jsx lines 189-192): hours scale
by 60, minutes pass through, absence defaults to 60. -/
def resolvedDuration (message : String) : Int :=
  match findDuration (lowerOf message) with
  | some (n, true) => (n : Int) * 60
  | some (n, false) => (n : Int)
  | none => 60

/-- The category of the resolved title (App.jsx lines 206-209). -/
def resolvedCategory (message : String) : String :=
  inferCategory (resolvedTitle message)

/-- The candidate alternative slots on the conflict path (App.jsx lines
225-227): the day's free slots whose full length is at least the
requested duration, first three in the calculator's order. -/
def conflictCandidates (tasks : List Task) (dateIdx duration : Int) :
    List Slot :=
  ((getFreeSlots tasks dateIdx).filter
    (fun s => duration ≤ s.stop - s.start)).take 3

/-- Rendering of one alternative slot (App.jsx line 228): the displayed
end is clipped to `start + duration`. -/
def formatSuggestion (duration : Int) (s : Slot) : String :=
  minutesToTime s.start ++ " – " ++
    minutesToTime (min s.stop (s.start + duration))

/-- The confirmation message of the success branch (App.jsx line
254). -/
def okMessage (title : String) (dateIdx startTime endTime : Int) : String :=
  "✅ Added \"" ++ title ++ "\" on " ++ localeDateString dateIdx ++
    " from " ++ formatTime startTime ++ " to " ++ formatTime endTime

/-- The structured outcome of the intent resolver: the three return
shapes of `parseTaskFromNL` (`{success:false}` without and with
`conflict:true`, and `{success:true, task}`).  The conflict failure
carries the formatted alternative slots that the source interpolates
into its message. -/
inductive ParseResult where
  | noTime (message : String)
  | conflict (suggestions : List String) (message : String)
  | ok (task : Task) (message : String)
deriving DecidableEq, Repr

/-- Source `parseTaskFromNL` (App.jsx lines 161-256).  `selectedDate` is
the reference instant; `freshId` models the value of `generateId()`.
The first time mention becomes the start (hour values of 24 and above
roll into later days exactly as `Date#setHours` does), the end is start
plus duration, conflicts are checked with no exclusion id, and the
success draft carries the resolved title, category, derived colour and
the fixed defaults of lines 237-249. -/
def parseTaskFromNL (message : String) (tasks : List Task)
    (selectedDate : Int) (freshId : Nat) : ParseResult :=
  match resolvedTimes message with
  | [] =>
      .noTime
        "I couldn\x27t detect a time. Try: \x27Schedule a meeting tomorrow at 3 PM\x27"
  | (hour, minv) :: _ =>
    let targetDate := resolvedTarget message selectedDate
    let startTime :=
      targetDate / msPerDay * msPerDay + ((hour : Int) * 60 + (minv : Int)) * 60000
    let endTime := startTime + resolvedDuration message * 60000
    let dateIdx := targetDate / msPerDay
    if checkConflict tasks startTime endTime none then
      let sugg :=
        (conflictCandidates tasks dateIdx (resolvedDuration message)).map
          (formatSuggestion (resolvedDuration message))
      .conflict sugg
        ("⚠️ That time slot is already taken! Available slots: " ++
          String.intercalate (", ") sugg)
    else
      .ok
        { id := freshId, title := resolvedTitle message,
          description := "Added via AI assistant", startTime := startTime,
          endTime := endTime, completed := false,
          category := resolvedCategory message, priority := "medium",
          color := categoryColor (resolvedCategory message),
          reminder := true, reminderSent := false }
        (okMessage (resolvedTitle message) dateIdx startTime endTime)

/-! ## Helper lemmas -/

/-- Reduction of `Char.ofNat` at a valid codepoint. -/
theorem charOfNat_toNat (n : Nat) (h : n.isValidChar) :
    (Char.ofNat n).toNat = n := by
  simp [Char.ofNat, Char.ofNatAux, h, Char.toNat]
  rfl

/-- The digit test expressed on codepoints. -/
theorem isDigit_eq (c : Char) :
    c.isDigit = (decide (48 ≤ c.toNat) && decide (c.toNat ≤ 57)) := by
  simp [Char.isDigit, Char.toNat, UInt32.le_def, BitVec.le_def]
  rfl

/-- Lower-casing does not change whether a character is a digit. -/
theorem lcChar_isDigit (c : Char) : (lcChar c).isDigit = c.isDigit := by
  unfold lcChar
  split_ifs with h
  · have hv : Nat.isValidChar (c.toNat + 32) := Or.inl (by omega)
    simp only [isDigit_eq, charOfNat_toNat _ hv]
    have h1 : ¬(c.toNat + 32 ≤ 57) := by omega
    have h2 : ¬(c.toNat ≤ 57) := by omega
    simp [h1, h2]
  · rfl

/-! ## C3: the conflict detector's contract -/

/-- C3.  `checkConflict` returns true iff some task whose id differs
from the exclusion id satisfies `candidateStart < taskEnd` and
`candidateEnd > taskStart`; consequently intervals that merely touch at
an endpoint never make the pairwise overlap test succeed. -/
theorem checkConflict_iff_overlap :
    (∀ (tasks : List Task) (s e : Int) (ex : Option Nat),
      checkConflict tasks s e ex = true ↔
        ∃ t ∈ tasks, some t.id ≠ ex ∧ s < t.endTime ∧ e > t.startTime) ∧
    (∀ s e ts te : Int, (e = ts ∨ s = te) → overlaps s e ts te = false) := by
  constructor
  · intro tasks s e ex
    simp only [checkConflict, List.any_eq_true, List.mem_filter, overlaps,
      Bool.and_eq_true, decide_eq_true_eq, Bool.not_eq_true',
      beq_eq_false_iff_ne, ne_eq]
    constructor
    · rintro ⟨t, ⟨ht, hne⟩, h1, h2⟩
      exact ⟨t, ht, hne, h1, h2⟩
    · rintro ⟨t, ht, hne, h1, h2⟩
      exact ⟨t, ⟨ht, hne⟩, h1, h2⟩
  · rintro s e ts te (rfl | rfl) <;> simp [overlaps]

/-- A sample task used by concrete witnesses: interval `[3, 7)`. -/
def sampleTask : Task :=
  ⟨1, "t", "", 3, 7, false, "general", "medium", "", true, false⟩

/-- Witness for C3 at concrete inputs: an interval touching a task's
start does not overlap it, and the membership characterisation holds on
a concrete one-task collection. -/
theorem checkConflict_iff_overlap_witness :
    overlaps 0 5 5 9 = false ∧
    (checkConflict [sampleTask] 0 5 none = true ↔
      ∃ t ∈ [sampleTask], some t.id ≠ none ∧
        (0 : Int) < t.endTime ∧ (5 : Int) > t.startTime) :=
  ⟨checkConflict_iff_overlap.2 0 5 5 9 (Or.inl rfl),
    checkConflict_iff_overlap.1 [sampleTask] 0 5 none⟩

/-! ## C9: symmetry and self-exclusion of the conflict detector -/

/-- C9.  The pairwise overlap test is symmetric in the two intervals,
and a task contributes nothing to a conflict check from which its own id
is excluded: prepending the task itself to any collection leaves the
check's result unchanged. -/
theorem overlaps_symm_and_self_excluded :
    (∀ s1 e1 s2 e2 : Int, overlaps s1 e1 s2 e2 = overlaps s2 e2 s1 e1) ∧
    (∀ (t : Task) (tasks : List Task),
      checkConflict (t :: tasks) t.startTime t.endTime (some t.id) =
        checkConflict tasks t.startTime t.endTime (some t.id)) ∧
    (∀ (t : Task) (tasks : List Task),
      checkConflict tasks t.startTime t.endTime (some t.id) = true →
        ∃ u ∈ tasks, u.id ≠ t.id ∧
          overlaps t.startTime t.endTime u.startTime u.endTime = true) := by
  refine ⟨?_, ?_, ?_⟩
  · intro s1 e1 s2 e2
    simp [overlaps, Bool.and_comm]
  · intro t tasks
    simp [checkConflict, List.filter_cons]
  · intro t tasks h
    simp only [checkConflict, List.any_eq_true, List.mem_filter,
      Bool.not_eq_true', beq_eq_false_iff_ne, ne_eq,
      Option.some.injEq] at h
    obtain ⟨u, ⟨hu, hne⟩, hov⟩ := h
    exact ⟨u, hu, hne, hov⟩

/-- Witness for C9's self-exclusion consequence: a task never conflicts
with itself alone when its id is excluded. -/
theorem overlaps_symm_and_self_excluded_witness :
    checkConflict [sampleTask] sampleTask.startTime sampleTask.endTime
      (some sampleTask.id) = false := by
  rw [show ([sampleTask] : List Task) = sampleTask :: [] from rfl,
    overlaps_symm_and_self_excluded.2.1 sampleTask []]
  rfl

/-! ## C2: the reminder firing condition -/

/-- A task that fires necessarily has `reminderSent = false`. -/
theorem reminderFires_sent_false (now : Int) (t : Task) :
    reminderFires now t = true → t.reminderSent = false := by
  simp only [reminderFires, Bool.and_eq_true, Bool.not_eq_true',
    Bool.or_eq_false_iff, decide_eq_true_eq]
  tauto

/-- C2.  A poll notifies a task and flips `reminderSent` exactly when
the task has `reminder` set, is not completed, has not been notified,
and starts strictly within the next fifteen minutes; a task that fired
once can never fire on a later poll, and `reminderSent` is never reset
from true to false. -/
theorem reminderFires_iff_and_once :
    ∀ (now : Int) (t : Task),
      (reminderFires now t = true ↔
        (t.reminder = true ∧ t.completed = false ∧ t.reminderSent = false ∧
          0 < t.startTime - now ∧ t.startTime - now ≤ 15 * 60000)) ∧
      ((checkRemindersStep now t).reminderSent = true ↔
        (t.reminderSent = true ∨ reminderFires now t = true)) ∧
      (∀ now2 : Int,
        reminderFires now2 (checkRemindersStep now t) = true →
          reminderFires now t = false) ∧
      (t.reminderSent = true →
        (checkRemindersStep now t).reminderSent = true) := by
  intro now t
  obtain ⟨tid, ttl, dsc, st, en, comp, cat, pri, col, rem, sent⟩ := t
  cases comp <;> cases rem <;> cases sent <;>
    by_cases hw : 0 < st - now ∧ st - now ≤ 15 * 60000 <;>
      simp_all [reminderFires, checkRemindersStep] <;> split_ifs with hif <;> simp_all

/-- A second sample task for the reminder witnesses: starts 10 minutes
(600000 ms) after instant 0, reminder on, not completed, not yet
notified. -/
def reminderSample : Task :=
  ⟨2, "r", "", 600000, 1200000, false, "general", "medium", "", true, false⟩

/-- Witness for C2: at `now = 0` the sample task (starting in 10
minutes) fires and its flag flips; the stepped task can no longer fire
one second later. -/
theorem reminderFires_iff_and_once_witness :
    reminderFires 0 reminderSample = true ∧
    (checkRemindersStep 0 reminderSample).reminderSent = true ∧
    reminderFires 1000 (checkRemindersStep 0 reminderSample) = false := by
  refine ⟨by decide, ?_, ?_⟩
  · exact ((reminderFires_iff_and_once 0 reminderSample).2.1).2
      (Or.inr (by decide))
  · rcases Bool.eq_false_or_eq_true
        (reminderFires 1000 (checkRemindersStep 0 reminderSample)) with h | h
    · exact absurd ((reminderFires_iff_and_once 0 reminderSample).2.2.1 1000 h)
        (by decide)
    · exact h

/-! ## C8: frame property of the reminder scheduler -/

/-- C8.  A poll maps the per-task update over the collection, and any
task that is completed, already notified, reminder-disabled, or outside
the `(0, 15]`-minute window is returned with every field unchanged. -/
theorem checkReminders_frame :
    ∀ (now : Int) (tasks : List Task),
      checkReminders now tasks = tasks.map (checkRemindersStep now) ∧
      ∀ t : Task,
        (t.completed = true ∨ t.reminderSent = true ∨ t.reminder = false ∨
          ¬(0 < t.startTime - now ∧ t.startTime - now ≤ 15 * 60000)) →
        checkRemindersStep now t = t := by
  intro now tasks
  refine ⟨rfl, ?_⟩
  intro t ht
  unfold checkRemindersStep
  split_ifs with h1 h2
  · rfl
  · exfalso
    rcases ht with hc | hs | hr | hw
    · simp [hc] at h1
    · simp [hs] at h1
    · simp [hr] at h1
    · exact hw h2
  · rfl

/-- Witness for C8: a completed task and a task 20 minutes away are both
returned unchanged by a poll at instant 0. -/
theorem checkReminders_frame_witness :
    checkRemindersStep 0 ⟨3, "c", "", 600000, 1200000, true, "general",
      "medium", "", true, false⟩ = ⟨3, "c", "", 600000, 1200000, true,
      "general", "medium", "", true, false⟩ ∧
    checkRemindersStep 0 ⟨4, "far", "", 1200000, 1800000, false, "general",
      "medium", "", true, false⟩ = ⟨4, "far", "", 1200000, 1800000, false,
      "general", "medium", "", true, false⟩ :=
  ⟨(checkReminders_frame 0 []).2 _ (Or.inl rfl),
    (checkReminders_frame 0 []).2 _ (Or.inr (Or.inr (Or.inr (by decide))))⟩

/-! ## C4: category inference order -/

/-- Counterexample for C4 as stated: on the title `Review lunch`, which
matches both the work set (`review`) and the personal set (`lunch`), the
spec's first-match-wins rule picks `work` but the code picks
`personal` — the sequential `if` statements let the LAST match win. -/
theorem inferCategory_first_match_cex :
    inferCategorySpec "Review lunch" = "work" ∧
    inferCategory "Review lunch" = "personal" ∧
    ("personal" : String) ≠ "work" :=
  ⟨rfl, rfl, by decide⟩

/-- C4 (amended).  The category inference tests the work, health and
personal keyword sets in that order, but the LAST matching set wins
(a title matching both the work set and a later set is categorised by
the later set); a title matching no set yields `general`. -/
theorem inferCategory_last_match_wins :
    ∀ title : String,
      (testAny personalKeywords title = true →
        inferCategory title = "personal") ∧
      (testAny personalKeywords title = false →
        testAny healthKeywords title = true →
          inferCategory title = "health") ∧
      (testAny personalKeywords title = false →
        testAny healthKeywords title = false →
          testAny workKeywords title = true →
            inferCategory title = "work") ∧
      (testAny personalKeywords title = false →
        testAny healthKeywords title = false →
          testAny workKeywords title = false →
            inferCategory title = "general") := by
  intro title
  refine ⟨fun h1 => ?_, fun h1 h2 => ?_, fun h1 h2 h3 => ?_,
    fun h1 h2 h3 => ?_⟩ <;>
    simp [inferCategory, h1]
  · simp [h2]
  · simp [h2, h3]
  · simp [h2, h3]

/-- Witness for the amended C4: a title matching only the health set is
categorised `health`. -/
theorem inferCategory_last_match_wins_witness :
    inferCategory "Morning run" = "health" :=
  (inferCategory_last_match_wins "Morning run").2.1 rfl rfl

/-! ## C7: the no-time failure branch -/

/-- Helper: the resolver's behaviour when no time mention is found. -/
theorem parse_noTime_of_empty (m : String) (tasks : List Task) (d : Int)
    (fid : Nat) (h : resolvedTimes m = []) :
    parseTaskFromNL m tasks d fid =
      .noTime
        "I couldn\x27t detect a time. Try: \x27Schedule a meeting tomorrow at 3 PM\x27" := by
  unfold parseTaskFromNL
  rw [h]

/-- Helper: with at least one time mention, the resolver never returns
the `noTime` failure. -/
theorem parse_not_noTime (m : String) (tasks : List Task) (d : Int)
    (fid : Nat) (h : resolvedTimes m ≠ []) (msg : String) :
    parseTaskFromNL m tasks d fid ≠ .noTime msg := by
  unfold parseTaskFromNL
  cases hts : resolvedTimes m with
  | nil => exact absurd hts h
  | cons hd tl =>
    obtain ⟨hh, hm⟩ := hd
    dsimp only
    split <;> simp

/-- C7.  When the utterance contains no recognisable time-of-day
mention, the resolver returns the structured `noTime` failure with the
clarification message — it produces no task draft and no alternative
slots (the `noTime` constructor carries neither). -/
theorem parseTaskFromNL_noTime :
    ∀ (message : String) (tasks : List Task) (selectedDate : Int)
      (freshId : Nat),
      resolvedTimes message = [] →
      parseTaskFromNL message tasks selectedDate freshId =
        .noTime
          "I couldn\x27t detect a time. Try: \x27Schedule a meeting tomorrow at 3 PM\x27" := by
  intro m tasks d fid h
  exact parse_noTime_of_empty m tasks d fid h

/-- Witness for C7 on a digit-free utterance. -/
theorem parseTaskFromNL_noTime_witness :
    parseTaskFromNL "book a meeting with Sam" [] 0 0 =
      .noTime
        "I couldn\x27t detect a time. Try: \x27Schedule a meeting tomorrow at 3 PM\x27" :=
  parseTaskFromNL_noTime "book a meeting with Sam" [] 0 0 rfl

/-! ## C10: what counts as a time mention -/

/-- Helper: the time scan is empty iff the input has no decimal digit
(given sufficient fuel, which the entry point always supplies). -/
theorem scanTimesFuel_nil_iff :
    ∀ (fuel : Nat) (l : List Char), l.length ≤ fuel →
      (scanTimesFuel fuel l = [] ↔ ∀ c ∈ l, c.isDigit = false) := by
  intro fuel
  induction fuel with
  | zero =>
    intro l hl
    have hnil : l = [] := List.eq_nil_of_length_eq_zero (Nat.le_zero.mp hl)
    subst hnil
    simp [scanTimesFuel]
  | succ n ih =>
    intro l hl
    cases l with
    | nil => simp [scanTimesFuel]
    | cons c rest =>
      by_cases hd : c.isDigit = true
      · constructor
        · intro h
          simp [scanTimesFuel, hd] at h
        · intro h
          exact absurd (h c (List.mem_cons_self c rest)) (by simp [hd])
      · have hr : rest.length ≤ n := by
          simpa using hl
        simp [scanTimesFuel, hd, ih rest hr, List.forall_mem_cons,
          Bool.not_eq_true] at hd ⊢

/-- C10.  The time scanner accepts any bare digit sequence, so the
`noTime` failure occurs exactly for utterances containing no digits at
all; and on `Schedule 30 minute review` the first number `30` (a
duration, not a clock time) is parsed as the start hour, rolling the
start to 06:00 of the following day exactly as `Date#setHours(30)`
does. -/
theorem parseTaskFromNL_noTime_iff_no_digits :
    (∀ (m : String) (tasks : List Task) (d : Int) (fid : Nat),
      (∃ msg, parseTaskFromNL m tasks d fid = .noTime msg) ↔
        ∀ c ∈ m.toList, c.isDigit = false) ∧
    resolvedTimes "Schedule 30 minute review" = [(30, 0)] ∧
    parseTaskFromNL "Schedule 30 minute review" [] 0 0 =
      .ok ⟨0, "30 minute review", "Added via AI assistant", 108000000,
        109800000, false, "work", "medium", "#4A90D9", true, false⟩
        "✅ Added \"30 minute review\" on Thursday, Jan 1 from 06:00 to 06:30" := by
  refine ⟨?_, rfl, rfl⟩
  intro m tasks d fid
  have hscan : resolvedTimes m = [] ↔ ∀ c ∈ m.toList, c.isDigit = false := by
    unfold resolvedTimes scanTimes lowerOf
    rw [scanTimesFuel_nil_iff _ _ (le_refl _)]
    simp [List.forall_mem_map, lcChar_isDigit]
  constructor
  · rintro ⟨msg, hmsg⟩
    rw [← hscan]
    by_contra hne
    exact parse_not_noTime m tasks d fid hne msg hmsg
  · intro h
    exact ⟨_, parse_noTime_of_empty m tasks d fid (hscan.mpr h)⟩

/-! ## C5: the round-trip example -/

/-- C5.  For any reference day `d`, the utterance
`Schedule team sync tomorrow at 2 PM for 1 hour` on an empty collection
resolves to a success draft titled `Team sync`, categorised `work` with
the work colour, priority `medium`, reminder on, `reminderSent` and
`completed` off, starting at 14:00 and ending at 15:00 of day `d + 1`. -/
theorem parseTaskFromNL_round_trip :
    ∀ d : Int,
      parseTaskFromNL "Schedule team sync tomorrow at 2 PM for 1 hour" []
        (d * msPerDay) 0 =
      .ok ⟨0, "Team sync", "Added via AI assistant",
        (d + 1) * msPerDay + 14 * 3600000,
        (d + 1) * msPerDay + 15 * 3600000, false, "work", "medium",
        "#4A90D9", true, false⟩
        (okMessage "Team sync" (d + 1) ((d + 1) * msPerDay + 14 * 3600000)
          ((d + 1) * msPerDay + 15 * 3600000)) := by
  intro d
  have hne : msPerDay ≠ 0 := by norm_num [msPerDay]
  have htgt :
      resolvedTarget "Schedule team sync tomorrow at 2 PM for 1 hour"
        (d * msPerDay) = d * msPerDay + msPerDay := rfl
  have hdiv : (d * msPerDay + msPerDay) / msPerDay = d + 1 := by
    rw [show d * msPerDay + msPerDay = (d + 1) * msPerDay by ring,
      Int.mul_ediv_cancel _ hne]
  unfold parseTaskFromNL
  rw [show resolvedTimes "Schedule team sync tomorrow at 2 PM for 1 hour" =
    [(14, 0), (1, 0)] from rfl]
  dsimp only
  rw [htgt, hdiv,
    show resolvedDuration "Schedule team sync tomorrow at 2 PM for 1 hour" =
      60 from rfl,
    show resolvedTitle "Schedule team sync tomorrow at 2 PM for 1 hour" =
      "Team sync" from rfl,
    show resolvedCategory "Schedule team sync tomorrow at 2 PM for 1 hour" =
      "work" from rfl]
  norm_num
  rw [if_neg (by simp [checkConflict]),
    show categoryColor ("work") = "#4A90D9" from rfl,
    show ((d + 1) * msPerDay + 50400000 + 3600000 : Int) =
      (d + 1) * msPerDay + 54000000 by ring]

/-! ## C6: the conflict-path alternatives -/

/-- Helper: every slot the sweep emits starts at or after the cursor. -/
theorem freeSweep_start_ge :
    ∀ (ts : List Task) (W c : Int), ∀ s ∈ freeSweep W c ts, c ≤ s.start := by
  intro ts
  induction ts with
  | nil =>
    intro W c s hs
    unfold freeSweep at hs
    split at hs
    · rw [List.mem_singleton] at hs
      subst hs
      exact le_refl c
    · exact absurd hs (List.not_mem_nil s)
  | cons t ts ih =>
    intro W c s hs
    unfold freeSweep at hs
    rcases List.mem_append.mp hs with h | h
    · split at h
      · rw [List.mem_singleton] at h
        subst h
        exact le_refl c
      · exact absurd h (List.not_mem_nil s)
    · exact le_trans (le_max_left _ _) (ih W _ s h)

/-- Helper: the sweep's slots have non-decreasing start times, with no
hypotheses on the task collection. -/
theorem freeSweep_starts_mono :
    ∀ (ts : List Task) (W c : Int),
      List.Pairwise (fun a b => a.start ≤ b.start) (freeSweep W c ts) := by
  intro ts
  induction ts with
  | nil =>
    intro W c
    unfold freeSweep
    split <;> simp
  | cons t ts ih =>
    intro W c
    unfold freeSweep
    rw [List.pairwise_append]
    refine ⟨?_, ih W _, ?_⟩
    · split <;> simp
    · intro a ha b hb
      have hb' := freeSweep_start_ge ts W _ b hb
      split at ha
      · rw [List.mem_singleton] at ha
        subst ha
        exact le_trans (le_max_left _ _) hb'
      · exact absurd ha (List.not_mem_nil a)

/-- C6.  The conflict-path alternatives: at most three candidates, each
a free slot of full length at least the requested duration, taken in
order of non-decreasing start (a sublist of that day's free-slot list);
if no slot is long enough the list is empty (the failure is returned,
not thrown — the resolver is a total function).  Whenever the resolver
returns the conflict failure, its suggestions are exactly the formatted
candidates with each displayed end clipped to start plus duration. -/
theorem parseTaskFromNL_conflict_alternatives :
    (∀ (tasks : List Task) (dateIdx duration : Int),
      (conflictCandidates tasks dateIdx duration).length ≤ 3 ∧
      (∀ s ∈ conflictCandidates tasks dateIdx duration,
        duration ≤ s.stop - s.start) ∧
      List.Pairwise (fun a b => a.start ≤ b.start)
        (conflictCandidates tasks dateIdx duration) ∧
      (conflictCandidates tasks dateIdx duration).Sublist
        (getFreeSlots tasks dateIdx) ∧
      ((getFreeSlots tasks dateIdx).filter
          (fun s => duration ≤ s.stop - s.start) = [] →
        conflictCandidates tasks dateIdx duration = [])) ∧
    (∀ (m : String) (tasks : List Task) (d : Int) (fid : Nat)
      (sugg : List String) (msg : String),
      parseTaskFromNL m tasks d fid = .conflict sugg msg →
      sugg = (conflictCandidates tasks (resolvedTarget m d / msPerDay)
          (resolvedDuration m)).map
        (fun s => minutesToTime s.start ++ " – " ++
          minutesToTime (min s.stop (s.start + resolvedDuration m)))) := by
  constructor
  · intro tasks dateIdx duration
    have hsub : (conflictCandidates tasks dateIdx duration).Sublist
        (getFreeSlots tasks dateIdx) := by
      unfold conflictCandidates
      exact (List.take_sublist _ _).trans (List.filter_sublist _)
    refine ⟨?_, ?_, ?_, hsub, ?_⟩
    · unfold conflictCandidates
      exact List.length_take_le 3 _
    · intro s hs
      unfold conflictCandidates at hs
      have hs' := List.mem_of_mem_take hs
      have := (List.mem_filter.mp hs').2
      simpa using this
    · exact (freeSweep_starts_mono _ _ _).sublist hsub
    · intro hnil
      unfold conflictCandidates
      rw [hnil]
      rfl
  · intro m tasks d fid sugg msg h
    unfold parseTaskFromNL at h
    cases hts : resolvedTimes m with
    | nil =>
      rw [hts] at h
      cases h
    | cons hd tl =>
      obtain ⟨hh, hm⟩ := hd
      rw [hts] at h
      dsimp only at h
      split at h
      · injection h with h1 h2
        exact h1.symm
      · cases h

/-- The task used by the conflict witness: 14:00-15:00 on epoch day 1. -/
def conflictTask : Task :=
  ⟨5, "busy", "", 136800000, 140400000, false, "general", "medium", "",
    true, false⟩

/-- Witness for C6: the round-trip utterance against a collection whose
day `1` already holds 14:00-15:00 yields the conflict failure, and its
two suggestions are the clipped formatted candidates. -/
theorem parseTaskFromNL_conflict_alternatives_witness :
    parseTaskFromNL "Schedule team sync tomorrow at 2 PM for 1 hour"
      [conflictTask] 0 0 =
      .conflict ["08:00 – 09:00", "15:00 – 16:00"]
        "⚠️ That time slot is already taken! Available slots: 08:00 – 09:00, 15:00 – 16:00" ∧
    ["08:00 – 09:00", "15:00 – 16:00"] =
      (conflictCandidates [conflictTask]
          (resolvedTarget "Schedule team sync tomorrow at 2 PM for 1 hour" 0 /
            msPerDay)
          (resolvedDuration "Schedule team sync tomorrow at 2 PM for 1 hour")).map
        (fun s => minutesToTime s.start ++ " – " ++
          minutesToTime (min s.stop (s.start +
            resolvedDuration "Schedule team sync tomorrow at 2 PM for 1 hour"))) :=
  ⟨rfl,
    parseTaskFromNL_conflict_alternatives.2
      "Schedule team sync tomorrow at 2 PM for 1 hour" [conflictTask] 0 0
      ["08:00 – 09:00", "15:00 – 16:00"]
      "⚠️ That time slot is already taken! Available slots: 08:00 – 09:00, 15:00 – 16:00"
      rfl⟩

/-! ## C1: correctness of the free-slot calculator -/

instance : IsTotal Task (fun a b => a.startTime ≤ b.startTime) :=
  ⟨fun a b => Int.le_total a.startTime b.startTime⟩

instance : IsTrans Task (fun a b => a.startTime ≤ b.startTime) :=
  ⟨fun _ _ _ h1 h2 => le_trans h1 h2⟩

/-- Helper: the day's task list is sorted by start instant. -/
theorem dayTasks_sorted (tasks : List Task) (d : Int) :
    List.Pairwise (fun a b => a.startTime ≤ b.startTime)
      (dayTasks tasks d) :=
  List.sorted_insertionSort _ _

/-- Helper: membership in the day's task list. -/
theorem dayTasks_mem (tasks : List Task) (d : Int) (t : Task) :
    t ∈ dayTasks tasks d ↔ (t ∈ tasks ∧ isoDay t.startTime = d) := by
  unfold dayTasks
  rw [(List.perm_insertionSort _ _).mem_iff, List.mem_filter]
  simp

/-- Helper: on instants of the same calendar day, the start-instant
order transfers to minutes since midnight. -/
theorem sameDay_mm_mono (a b : Int) (ha : isoDay a = isoDay b)
    (h : a ≤ b) : minutesSinceMidnight a ≤ minutesSinceMidnight b := by
  unfold minutesSinceMidnight isoDay msPerDay at *
  omega

/-- Helper: when every day task starts no later than the window end,
every emitted slot lies between the cursor and the window end and has
positive length. -/
theorem freeSweep_bounds :
    ∀ (ts : List Task) (W c : Int),
      (∀ t ∈ ts, minutesSinceMidnight t.startTime ≤ W) →
      ∀ s ∈ freeSweep W c ts,
        c ≤ s.start ∧ s.start < s.stop ∧ s.stop ≤ W := by
  intro ts
  induction ts with
  | nil =>
    intro W c _ s hs
    unfold freeSweep at hs
    split at hs
    next h =>
      rw [List.mem_singleton] at hs
      subst hs
      exact ⟨le_refl c, h, le_refl W⟩
    next h =>
      exact absurd hs (List.not_mem_nil s)
  | cons t ts ih =>
    intro W c hW s hs
    have hWt : minutesSinceMidnight t.startTime ≤ W :=
      hW t (List.mem_cons_self t ts)
    have hWts : ∀ u ∈ ts, minutesSinceMidnight u.startTime ≤ W :=
      fun u hu => hW u (List.mem_cons_of_mem t hu)
    unfold freeSweep at hs
    rcases List.mem_append.mp hs with h | h
    · split at h
      next hgt =>
        rw [List.mem_singleton] at h
        subst h
        exact ⟨le_refl c, hgt, hWt⟩
      next hgt =>
        exact absurd h (List.not_mem_nil s)
    · obtain ⟨h1, h2, h3⟩ := ih W _ hWts s h
      exact ⟨le_trans (le_max_left _ _) h1, h2, h3⟩

/-- Helper: when no day task crosses midnight (its start minute is at
most its end minute), the emitted slots are pairwise disjoint, each
ending no later than the next begins. -/
theorem freeSweep_disjoint :
    ∀ (ts : List Task) (W c : Int),
      (∀ t ∈ ts, minutesSinceMidnight t.startTime ≤
        minutesSinceMidnight t.endTime) →
      List.Pairwise (fun a b => a.stop ≤ b.start) (freeSweep W c ts) := by
  intro ts
  induction ts with
  | nil =>
    intro W c _
    unfold freeSweep
    split <;> simp
  | cons t ts ih =>
    intro W c h
    have ht : minutesSinceMidnight t.startTime ≤
        minutesSinceMidnight t.endTime := h t (List.mem_cons_self t ts)
    have hts : ∀ u ∈ ts, minutesSinceMidnight u.startTime ≤
        minutesSinceMidnight u.endTime :=
      fun u hu => h u (List.mem_cons_of_mem t hu)
    unfold freeSweep
    rw [List.pairwise_append]
    refine ⟨?_, ih W _ hts, ?_⟩
    · split <;> simp
    · intro a ha b hb
      have hb' := freeSweep_start_ge ts W _ b hb
      split at ha
      next hgt =>
        rw [List.mem_singleton] at ha
        subst ha
        calc minutesSinceMidnight t.startTime
            ≤ minutesSinceMidnight t.endTime := ht
          _ ≤ max c (minutesSinceMidnight t.endTime) := le_max_right _ _
          _ ≤ b.start := hb'
      next hgt =>
        exact absurd ha (List.not_mem_nil a)

/-- Helper: pointwise characterisation of the sweep's output — a minute
lies in some emitted slot iff it lies between the cursor and the window
end and inside no day task.  Requires the day tasks sorted by start
minute and starting no later than the window end. -/
theorem freeSweep_mem_iff :
    ∀ (ts : List Task) (W c x : Int),
      (∀ t ∈ ts, minutesSinceMidnight t.startTime ≤ W) →
      List.Pairwise (fun a b => minutesSinceMidnight a.startTime ≤
        minutesSinceMidnight b.startTime) ts →
      (inSlots x (freeSweep W c ts) ↔
        (c ≤ x ∧ x < W ∧ ∀ t ∈ ts,
          ¬(minutesSinceMidnight t.startTime ≤ x ∧
            x < minutesSinceMidnight t.endTime))) := by
  intro ts
  induction ts with
  | nil =>
    intro W c x _ _
    unfold freeSweep
    split
    next h =>
      simp [inSlots]
    next h =>
      simp [inSlots]
      intro h1
      omega
  | cons t ts ih =>
    intro W c x hW hsort
    rw [List.pairwise_cons] at hsort
    obtain ⟨hrel, hsort'⟩ := hsort
    have hWt : minutesSinceMidnight t.startTime ≤ W :=
      hW t (List.mem_cons_self t ts)
    have hWts : ∀ u ∈ ts, minutesSinceMidnight u.startTime ≤ W :=
      fun u hu => hW u (List.mem_cons_of_mem t hu)
    have IH := ih W (max c (minutesSinceMidnight t.endTime)) x hWts hsort'
    unfold freeSweep
    simp only [inSlots] at IH ⊢
    constructor
    · rintro ⟨s, hs, hxs⟩
      rcases List.mem_append.mp hs with h | h
      · split at h
        next hgt =>
          rw [List.mem_singleton] at h
          subst h
          refine ⟨hxs.1, lt_of_lt_of_le hxs.2 hWt, ?_⟩
          rw [List.forall_mem_cons]
          constructor
          · intro hcon
            exact absurd hcon.1 (not_le.mpr hxs.2)
          · intro u hu hcon
            exact absurd (le_trans (hrel u hu) hcon.1) (not_le.mpr hxs.2)
        next hgt =>
          exact absurd h (List.not_mem_nil s)
      · obtain ⟨hc', hxW, hfree⟩ := IH.1 ⟨s, h, hxs⟩
        refine ⟨le_trans (le_max_left _ _) hc', hxW, ?_⟩
        rw [List.forall_mem_cons]
        refine ⟨?_, hfree⟩
        intro hcon
        exact absurd hcon.2 (not_lt.mpr (le_trans (le_max_right _ _) hc'))
    · rintro ⟨hcx, hxW, hfree⟩
      rw [List.forall_mem_cons] at hfree
      obtain ⟨hft, hfts⟩ := hfree
      by_cases hxE : x < minutesSinceMidnight t.endTime
      · have hxS : x < minutesSinceMidnight t.startTime := by
          by_contra hge
          exact hft ⟨not_lt.mp hge, hxE⟩
        have hgt : minutesSinceMidnight t.startTime > c :=
          lt_of_le_of_lt hcx hxS
        refine ⟨⟨c, minutesSinceMidnight t.startTime⟩, ?_, hcx, hxS⟩
        apply List.mem_append.mpr
        left
        rw [if_pos hgt]
        exact List.mem_singleton.mpr rfl
      · have hc' : max c (minutesSinceMidnight t.endTime) ≤ x :=
          max_le hcx (not_lt.mp hxE)
        obtain ⟨s, hsmem, hxs⟩ := IH.2 ⟨hc', hxW, hfts⟩
        exact ⟨s, List.mem_append.mpr (Or.inr hsmem), hxs⟩

/-- C1 (amended).  Provided every task starting on the target day
neither crosses midnight (start minute at most end minute) nor starts
after the window end, `getFreeSlots` returns positive-length slots lying
within the window, pairwise disjoint in order, whose union together with
the day's task intervals clipped to the window is exactly the window,
and no slot meets any day task's interval. -/
theorem getFreeSlots_window_partition :
    ∀ (tasks : List Task) (dateIdx dayStart dayEnd : Int),
      (∀ t ∈ tasks, isoDay t.startTime = dateIdx →
        minutesSinceMidnight t.startTime ≤ minutesSinceMidnight t.endTime ∧
        minutesSinceMidnight t.startTime ≤ dayEnd * 60) →
      ((∀ s ∈ getFreeSlots tasks dateIdx dayStart dayEnd,
        dayStart * 60 ≤ s.start ∧ s.start < s.stop ∧
          s.stop ≤ dayEnd * 60) ∧
      List.Pairwise (fun a b => a.stop ≤ b.start)
        (getFreeSlots tasks dateIdx dayStart dayEnd) ∧
      (∀ x : Int,
        (inSlots x (getFreeSlots tasks dateIdx dayStart dayEnd) ∨
          (∃ t ∈ tasks, isoDay t.startTime = dateIdx ∧
            minutesSinceMidnight t.startTime ≤ x ∧
            x < minutesSinceMidnight t.endTime ∧
            dayStart * 60 ≤ x ∧ x < dayEnd * 60)) ↔
        (dayStart * 60 ≤ x ∧ x < dayEnd * 60)) ∧
      (∀ x : Int, inSlots x (getFreeSlots tasks dateIdx dayStart dayEnd) →
        ∀ t ∈ tasks, isoDay t.startTime = dateIdx →
          ¬(minutesSinceMidnight t.startTime ≤ x ∧
            x < minutesSinceMidnight t.endTime))) := by
  intro tasks dateIdx dayStart dayEnd hyp
  have hW : ∀ t ∈ dayTasks tasks dateIdx,
      minutesSinceMidnight t.startTime ≤ dayEnd * 60 := by
    intro t ht
    obtain ⟨hmem, hday⟩ := (dayTasks_mem tasks dateIdx t).mp ht
    exact (hyp t hmem hday).2
  have hwrap : ∀ t ∈ dayTasks tasks dateIdx,
      minutesSinceMidnight t.startTime ≤
        minutesSinceMidnight t.endTime := by
    intro t ht
    obtain ⟨hmem, hday⟩ := (dayTasks_mem tasks dateIdx t).mp ht
    exact (hyp t hmem hday).1
  have hsortmm : List.Pairwise
      (fun a b => minutesSinceMidnight a.startTime ≤
        minutesSinceMidnight b.startTime) (dayTasks tasks dateIdx) := by
    refine (dayTasks_sorted tasks dateIdx).imp_of_mem ?_
    intro a b ha hb hab
    have hda := ((dayTasks_mem tasks dateIdx a).mp ha).2
    have hdb := ((dayTasks_mem tasks dateIdx b).mp hb).2
    exact sameDay_mm_mono _ _ (hda.trans hdb.symm) hab
  have hiff := fun x => freeSweep_mem_iff (dayTasks tasks dateIdx)
    (dayEnd * 60) (dayStart * 60) x hW hsortmm
  refine ⟨freeSweep_bounds _ _ _ hW, freeSweep_disjoint _ _ _ hwrap,
    ?_, ?_⟩
  · intro x
    constructor
    · rintro (hin | ⟨t, _, _, _, _, h5, h6⟩)
      · obtain ⟨h1, h2, _⟩ := (hiff x).mp hin
        exact ⟨h1, h2⟩
      · exact ⟨h5, h6⟩
    · rintro ⟨h1, h2⟩
      by_cases hfree : ∀ t ∈ dayTasks tasks dateIdx,
          ¬(minutesSinceMidnight t.startTime ≤ x ∧
            x < minutesSinceMidnight t.endTime)
      · exact Or.inl ((hiff x).mpr ⟨h1, h2, hfree⟩)
      · push_neg at hfree
        obtain ⟨t, ht, hts, hte⟩ := hfree
        obtain ⟨hmem, hday⟩ := (dayTasks_mem tasks dateIdx t).mp ht
        exact Or.inr ⟨t, hmem, hday, hts, hte, h1, h2⟩
  · intro x hin t hmem hday
    exact ((hiff x).mp hin).2.2 t
      ((dayTasks_mem tasks dateIdx t).mpr ⟨hmem, hday⟩)

/-- The collection that refutes C1 as stated: a task 21:00-01:00
crossing midnight (instants 75600000-90000000, both sides of epoch day
0's end) and a task 22:30-23:00 starting after the 22:00 window end. -/
def badTasks : List Task :=
  [⟨21, "wrap", "", 75600000, 90000000, false, "general", "medium", "",
    true, false⟩,
   ⟨22, "late", "", 81000000, 82800000, false, "general", "medium", "",
    true, false⟩]

/-- Counterexample for C1 as stated: on `badTasks` (valid instants with
start before end) the calculator emits `[480, 1260)` and `[480, 1350)` —
two overlapping slots, the second ending after the window end 1320, so
the output is neither pairwise disjoint nor contained in the window. -/
theorem getFreeSlots_claim_cex :
    getFreeSlots badTasks 0 = [⟨480, 1260⟩, ⟨480, 1350⟩] ∧
    ¬(∀ s ∈ getFreeSlots badTasks 0, s.stop ≤ 22 * 60) ∧
    ¬List.Pairwise (fun a b => a.stop ≤ b.start)
      (getFreeSlots badTasks 0) := by
  refine ⟨rfl, ?_, ?_⟩ <;> decide

/-- The spec's own example collection: tasks 09:00-10:00 and
11:00-12:00 on epoch day 0. -/
def exampleTasks : List Task :=
  [⟨11, "nine", "", 32400000, 36000000, false, "general", "medium", "",
    true, false⟩,
   ⟨12, "eleven", "", 39600000, 43200000, false, "general", "medium", "",
    true, false⟩]

/-- Witness for the amended C1 on the spec's example: the side
conditions hold, the slots are exactly 08:00-09:00, 10:00-11:00 and
12:00-22:00, and they satisfy the window bounds. -/
theorem getFreeSlots_window_partition_witness :
    getFreeSlots exampleTasks 0 = [⟨480, 540⟩, ⟨600, 660⟩, ⟨720, 1320⟩] ∧
    (∀ t ∈ exampleTasks, isoDay t.startTime = 0 →
      minutesSinceMidnight t.startTime ≤ minutesSinceMidnight t.endTime ∧
      minutesSinceMidnight t.startTime ≤ 22 * 60) ∧
    (∀ s ∈ getFreeSlots exampleTasks 0 8 22,
      8 * 60 ≤ s.start ∧ s.start < s.stop ∧ s.stop ≤ 22 * 60) :=
  ⟨rfl, by decide,
    (getFreeSlots_window_partition exampleTasks 0 8 22 (by decide)).1⟩

end TaskFlow
